import Mathlib

/-!
Verification of the unipulse-backend engagement-to-notification pipeline.

The definitions below are a shallow embedding of the JavaScript source:
the like/comment handlers of the posts router, the notifications router,
the RSVP controller (`src/controllers/events.js`), and the mongoose
schemas (`src/models/Post.js`, `src/models/Event.js`,
`src/models/Notification.js`).  User and entity identifiers are strings,
MongoDB ObjectIds assigned by the store are modelled as a counter,
timestamps as naturals.
-/

set_option autoImplicit false

namespace Unipulse

/-- User / entity identifiers (`ObjectId.toString()` values). -/
abbrev Ident := String

/-- One entry of `postSchema.comments` (`src/models/Post.js:34-52`):
`{user, content, createdAt}`; the embedded comment-likes array is not
touched by the handlers we verify and is omitted. -/
structure Comment where
  user : Ident
  content : String
  createdAt : Nat
deriving DecidableEq, Repr

/-- A post document as used by the like/comment handlers:
`{_id, author, likes, comments}` from `postSchema`. -/
structure PostDoc where
  id : Ident
  author : Ident
  likes : List Ident := []
  comments : List Comment := []
deriving DecidableEq, Repr

/-- `relatedEntity` of `notificationSchema` (`src/models/Notification.js:30-36`). -/
structure RelatedEntity where
  type : String
  id : Ident
deriving DecidableEq, Repr

/-- A notification document (`notificationSchema`).  `recipient` is
`required: true` in the schema, hence a total field here; `isRead`
defaults to `false`; `createdAt` comes from `timestamps: true`. -/
structure Notification where
  id : Nat
  recipient : Ident
  sender : Option Ident := none
  type : String
  title : String
  message : String
  relatedEntity : Option RelatedEntity := none
  isRead : Bool := false
  createdAt : Nat := 0
deriving DecidableEq, Repr

/-! ### Toggle Engine: the like/unlike branch of `router.post('/:id/like')`
(`src/unnamed/part_000:73-100`). -/

/-- The pure state change of the like toggle: `hasLiked = likes.includes(uid)`;
if present, `likes.filter(l => l.toString() !== uid)`; if absent,
`likes.push(uid)`. -/
def toggleLike (likes : List Ident) (uid : Ident) : List Ident :=
  if uid ∈ likes then likes.filter (fun l => l ≠ uid)
  else likes ++ [uid]

/-! ### RSVP Engine: `rsvpEvent` (`src/controllers/events.js:71-108`). -/

/-- `attendees.status` enum of `eventSchema` (`src/models/Event.js:40-44`). -/
inductive RsvpStatus where
  | interested
  | going
deriving DecidableEq, Repr

/-- One entry of `eventSchema.attendees`: `{user, status}`. -/
structure Attendee where
  user : Ident
  status : RsvpStatus
deriving DecidableEq, Repr

/-- The attendee-list change of `rsvpEvent`: remove any existing entry for
the caller (`attendees.filter(a => a.user.toString() !== userId)`), then
append `{user: userId, status: status || 'interested'}`. -/
def rsvp (attendees : List Attendee) (uid : Ident) (status : Option RsvpStatus) :
    List Attendee :=
  attendees.filter (fun a => a.user ≠ uid) ++ [⟨uid, status.getD .interested⟩]

/-! ### Basic toggle lemmas -/

theorem count_toggleLike_le (likes : List Ident) (uid x : Ident)
    (h : ∀ y, likes.count y ≤ 1) : (toggleLike likes uid).count x ≤ 1 := by
  unfold toggleLike
  by_cases hm : uid ∈ likes
  · rw [if_pos hm]
    exact le_trans ((List.filter_sublist likes).count_le x) (h x)
  · rw [if_neg hm, List.count_append]
    rcases eq_or_ne x uid with rfl | hx
    · have h0 : likes.count x = 0 := List.count_eq_zero.mpr hm
      simp [h0]
    · have h1 : List.count x [uid] = 0 := by
        simp [List.count_singleton]
        exact fun hc => hx hc.symm
      rw [h1]
      simpa using h x

theorem count_foldl_toggleLike_le (ops : List Ident) (likes : List Ident)
    (h : ∀ y, likes.count y ≤ 1) (x : Ident) :
    (ops.foldl toggleLike likes).count x ≤ 1 := by
  induction ops generalizing likes with
  | nil => exact h x
  | cons u ops ih =>
      exact ih (toggleLike likes u) (fun y => count_toggleLike_le likes u y h)

/-- C2: starting from a like set in which every actor appears at most once
(in particular a fresh post's empty array), any sequence of like-toggle
calls leaves a like set in which every actor appears at most once:
each toggle is add-if-absent / remove-if-present. -/
theorem likes_nodup_invariant (likes : List Ident) (ops : List Ident)
    (h : ∀ y, likes.count y ≤ 1) :
    ∀ x, (ops.foldl toggleLike likes).count x ≤ 1 :=
  fun x => count_foldl_toggleLike_le ops likes h x

theorem likes_nodup_invariant_witness :
    (∀ y : Ident, List.count y (["a", "b"] : List Ident) ≤ 1) ∧
      ∀ x, (List.foldl toggleLike ["a", "b"] ["c", "a", "c"]).count x ≤ 1 := by
  refine ⟨?_, ?_⟩
  · intro y
    by_cases ha : y = "a"
    · simp [ha]
    · by_cases hb : y = "b"
      · simp [hb]
      · simp [List.count_cons, ha, hb]
  · exact likes_nodup_invariant ["a", "b"] ["c", "a", "c"] (by
      intro y
      by_cases ha : y = "a"
      · simp [ha]
      · by_cases hb : y = "b"
        · simp [hb]
        · simp [List.count_cons, ha, hb])

theorem length_filter_ne_add_count (l : List Ident) (u : Ident) :
    (l.filter (fun x => x ≠ u)).length + l.count u = l.length := by
  induction l with
  | nil => rfl
  | cons a l ih =>
      by_cases ha : a = u
      · subst ha
        rw [List.filter_cons_of_neg (by simp), List.count_cons_self, List.length_cons]
        omega
      · rw [List.filter_cons_of_pos (by simp [ha]),
          List.count_cons_of_ne (fun h => ha h.symm), List.length_cons, List.length_cons]
        omega

/-- C3: when the actor appears at most once in the like set (the invariant of
reachable posts), toggling the like twice in immediate succession restores the
original membership for every user (hence the original `liked` state) and the
original `likesCount`. -/
theorem toggleLike_twice_restores (likes : List Ident) (uid : Ident)
    (h : likes.count uid ≤ 1) :
    (toggleLike (toggleLike likes uid) uid).length = likes.length ∧
      ∀ x, x ∈ toggleLike (toggleLike likes uid) uid ↔ x ∈ likes := by
  by_cases hm : uid ∈ likes
  · have h1 : toggleLike likes uid = likes.filter (fun l => l ≠ uid) :=
      if_pos hm
    have h2 : uid ∉ likes.filter (fun l => l ≠ uid) := by
      simp [List.mem_filter]
    have h3 : toggleLike (toggleLike likes uid) uid
        = likes.filter (fun l => l ≠ uid) ++ [uid] := by
      rw [h1]
      exact if_neg h2
    have hcount : likes.count uid = 1 :=
      le_antisymm h (List.count_pos_iff.mpr hm)
    constructor
    · rw [h3, List.length_append, List.length_singleton]
      have := length_filter_ne_add_count likes uid
      omega
    · intro x
      rw [h3]
      by_cases hx : x = uid
      · subst hx
        simp [hm]
      · simp [List.mem_filter, hx]
  · have h1 : toggleLike likes uid = likes ++ [uid] := if_neg hm
    have h2 : uid ∈ likes ++ [uid] := by simp
    have h3 : toggleLike (toggleLike likes uid) uid
        = (likes ++ [uid]).filter (fun l => l ≠ uid) := by
      rw [h1]
      exact if_pos h2
    have h4 : toggleLike (toggleLike likes uid) uid = likes := by
      rw [h3, List.filter_append]
      have h5 : likes.filter (fun l => l ≠ uid) = likes :=
        List.filter_eq_self.mpr (fun a ha => by
          have hne : a ≠ uid := fun hc => hm (hc ▸ ha)
          simp [hne])
      have h6 : ([uid] : List Ident).filter (fun l => l ≠ uid) = [] := by
        simp
      rw [h5, h6, List.append_nil]

    rw [h4]
    exact ⟨rfl, fun x => Iff.rfl⟩

theorem toggleLike_twice_restores_witness :
    List.count ("u") (["a", "u"] : List Ident) ≤ 1 ∧
      ((toggleLike (toggleLike ["a", "u"] "u") "u").length = 2 ∧
        ∀ x, x ∈ toggleLike (toggleLike ["a", "u"] "u") "u" ↔ x ∈ (["a", "u"] : List Ident)) := by
  refine ⟨by decide, ?_⟩
  exact toggleLike_twice_restores ["a", "u"] "u" (by decide)

theorem filter_eq_of_filter_ne (m : List Attendee) (uid : Ident) :
    (m.filter (fun a => a.user ≠ uid)).filter (fun a => a.user = uid) = [] := by
  rw [List.filter_eq_nil_iff]
  intro a ha
  have h := (List.mem_filter.mp ha).2
  simp only [ne_eq, decide_not, Bool.not_eq_eq_eq_not, Bool.not_true,
    decide_eq_false_iff_not] at h
  simp [h]

theorem rsvp_filter_eq (acc : List Attendee) (uid : Ident) (c : Option RsvpStatus) :
    (rsvp acc uid c).filter (fun a => a.user = uid)
      = [⟨uid, c.getD .interested⟩] := by
  unfold rsvp
  rw [List.filter_append, filter_eq_of_filter_ne]
  simp

theorem rsvp_filter_ne (attendees : List Attendee) (uid : Ident)
    (st : Option RsvpStatus) :
    (rsvp attendees uid st).filter (fun a => a.user ≠ uid)
      = attendees.filter (fun a => a.user ≠ uid) := by
  unfold rsvp
  rw [List.filter_append]
  have h1 : (attendees.filter (fun a => a.user ≠ uid)).filter (fun a => a.user ≠ uid)
      = attendees.filter (fun a => a.user ≠ uid) :=
    List.filter_eq_self.mpr (fun a ha => (List.mem_filter.mp ha).2)
  have h2 : ([(⟨uid, st.getD .interested⟩ : Attendee)]).filter (fun a => a.user ≠ uid)
      = [] := by
    simp
  rw [h1, h2, List.append_nil]

theorem foldl_rsvp_filter_ne (calls : List (Option RsvpStatus))
    (attendees : List Attendee) (uid : Ident) :
    (calls.foldl (fun acc st => rsvp acc uid st) attendees).filter
        (fun a => a.user ≠ uid)
      = attendees.filter (fun a => a.user ≠ uid) := by
  induction calls generalizing attendees with
  | nil => rfl
  | cons c calls ih =>
      rw [List.foldl_cons, ih, rsvp_filter_ne]

/-- C4: after any nonempty sequence of `Rsvp` calls by one actor, the attendee
list holds exactly one entry for that actor, whose status is the last call's
status (defaulting to `interested` when the call supplied none), and the
entries of all other actors are exactly what they were before. -/
theorem rsvp_last_call_wins (attendees : List Attendee) (uid : Ident)
    (calls : List (Option RsvpStatus)) (h : calls ≠ []) :
    (calls.foldl (fun acc st => rsvp acc uid st) attendees).filter
        (fun a => a.user = uid)
      = [⟨uid, (calls.getLast h).getD .interested⟩] ∧
    (calls.foldl (fun acc st => rsvp acc uid st) attendees).filter
        (fun a => a.user ≠ uid)
      = attendees.filter (fun a => a.user ≠ uid) := by
  refine ⟨?_, foldl_rsvp_filter_ne calls attendees uid⟩
  cases calls using List.reverseRecOn with
  | nil => exact absurd rfl h
  | append_singleton l c =>
      rw [List.foldl_append, List.foldl_cons, List.foldl_nil, List.getLast_append]
      exact rsvp_filter_eq _ uid c

theorem rsvp_last_call_wins_witness :
    ([some RsvpStatus.interested, some RsvpStatus.going] : List (Option RsvpStatus)) ≠ [] ∧
      (([some RsvpStatus.interested, some RsvpStatus.going].foldl
          (fun acc st => rsvp acc ("A") st)
          [⟨"B", RsvpStatus.going⟩]).filter (fun a => a.user = "A")
        = [⟨"A", RsvpStatus.going⟩] ∧
       ([some RsvpStatus.interested, some RsvpStatus.going].foldl
          (fun acc st => rsvp acc ("A") st)
          [⟨"B", RsvpStatus.going⟩]).filter (fun a => a.user ≠ "A")
        = [⟨"B", RsvpStatus.going⟩]) := by
  refine ⟨by decide, ?_⟩
  have h := rsvp_last_call_wins [⟨"B", RsvpStatus.going⟩] "A"
    [some RsvpStatus.interested, some RsvpStatus.going] (by decide)
  refine ⟨h.1, ?_⟩
  rw [h.2]
  decide

/-! ### The like and comment request handlers (`src/unnamed/part_000:65-159`)

The handlers run against a store holding the post collection and the
notification collection; `nextId` models the store assigning fresh
notification ids.  `notifStoreFails` injects an `Unavailable` failure of
`Notification.create`: in the source the `await` then throws and control
jumps to the surrounding `catch`, which answers HTTP 400 — any statement
after the throw point does not run. -/

structure Store where
  posts : List PostDoc
  notifs : List Notification
  nextId : Nat := 0
deriving DecidableEq, Repr

/-- The JSON answer of a handler; `liked`/`likesCount` are only present on
a successful like toggle. -/
structure Resp where
  status : Nat
  success : Bool
  liked : Option Bool := none
  likesCount : Option Nat := none
deriving DecidableEq, Repr

/-- Which store commits a request performed, in order: `engagementSave` is
`post.save()`, `notifPersist` is `Notification.create(...)`. -/
inductive StoreEvent where
  | engagementSave
  | notifPersist
deriving DecidableEq, Repr

structure HandlerOut where
  store : Store
  resp : Resp
  trace : List StoreEvent
deriving DecidableEq, Repr

/-- `post.save()`: write the (whole) modified document back. -/
def savePost (s : Store) (p : PostDoc) : Store :=
  { s with posts := s.posts.map (fun q => if q.id = p.id then p else q) }

/-- `Notification.create(...)`: persist a new notification document. -/
def createNotif (s : Store) (n : Notification) : Store :=
  { s with notifs := s.notifs ++ [n], nextId := s.nextId + 1 }

/-- The notification built in the like branch (`src/unnamed/part_000:84-91`). -/
def mkLikeNotif (s : Store) (post : PostDoc) (uid : Ident) (uname : String)
    (now : Nat) : Notification :=
  { id := s.nextId, recipient := post.author, sender := some uid,
    type := "like", title := "New Like",
    message := uname ++ " liked your post",
    relatedEntity := some ⟨"post", post.id⟩, isRead := false, createdAt := now }

/-- `router.post('/:id/like')` (`src/unnamed/part_000:65-113`): look the post
up (404 when absent); when already liked, filter the actor out; otherwise
push the actor and — when the actor is not the author — create the like
notification (before `post.save()`!) and emit the realtime push; finally
save the post and answer `{liked: !hasLiked, likesCount}`. -/
def likeHandler (s : Store) (postId uid : Ident) (uname : String) (now : Nat)
    (notifStoreFails : Bool) : HandlerOut :=
  match s.posts.find? (fun p => p.id = postId) with
  | none => { store := s, resp := { status := 404, success := false }, trace := [] }
  | some post =>
    if uid ∈ post.likes then
      let post' := { post with likes := post.likes.filter (fun l => l ≠ uid) }
      { store := savePost s post',
        resp := { status := 200, success := true, liked := some false,
                  likesCount := some post'.likes.length },
        trace := [.engagementSave] }
    else
      let post' := { post with likes := post.likes ++ [uid] }
      if post.author ≠ uid then
        if notifStoreFails then
          { store := s, resp := { status := 400, success := false }, trace := [] }
        else
          let s₁ := createNotif s (mkLikeNotif s post uid uname now)
          { store := savePost s₁ post',
            resp := { status := 200, success := true, liked := some true,
                      likesCount := some post'.likes.length },
            trace := [.notifPersist, .engagementSave] }
      else
        { store := savePost s post',
          resp := { status := 200, success := true, liked := some true,
                    likesCount := some post'.likes.length },
          trace := [.engagementSave] }

/-- The notification built by the comment handler (`src/unnamed/part_000:138-145`). -/
def mkCommentNotif (s : Store) (post : PostDoc) (uid : Ident) (uname : String)
    (now : Nat) : Notification :=
  { id := s.nextId, recipient := post.author, sender := some uid,
    type := "comment", title := "New Comment",
    message := uname ++ " commented on your post",
    relatedEntity := some ⟨"post", post.id⟩, isRead := false, createdAt := now }

/-- `router.post('/:id/comments')` (`src/unnamed/part_000:118-159`): look the
post up (404 when absent); push `{user, content}` onto the comment array;
`post.save()`; then — when the actor is not the author — create the comment
notification and emit the realtime push; answer the comment list. -/
def commentHandler (s : Store) (postId uid : Ident) (uname content : String)
    (now : Nat) (notifStoreFails : Bool) : HandlerOut :=
  match s.posts.find? (fun p => p.id = postId) with
  | none => { store := s, resp := { status := 404, success := false }, trace := [] }
  | some post =>
    let post' := { post with comments := post.comments ++ [⟨uid, content, now⟩] }
    let s₁ := savePost s post'
    if post.author ≠ uid then
      if notifStoreFails then
        { store := s₁, resp := { status := 400, success := false },
          trace := [.engagementSave] }
      else
        { store := createNotif s₁ (mkCommentNotif s₁ post uid uname now),
          resp := { status := 200, success := true },
          trace := [.engagementSave, .notifPersist] }
    else
      { store := s₁, resp := { status := 200, success := true },
        trace := [.engagementSave] }

theorem savePost_notifs (s : Store) (p : PostDoc) :
    (savePost s p).notifs = s.notifs := rfl

/-- C1: with the notification store healthy, a like or comment by the post's
author creates no notification; a like by another actor creates exactly one
notification (addressed to the author, sent by the actor) on the
absent→present transition and none on present→absent; a comment by another
actor always creates exactly one such notification. -/
theorem notify_iff_not_self (s : Store) (postId uid : Ident)
    (uname content : String) (now : Nat) (post : PostDoc)
    (hfind : s.posts.find? (fun p => p.id = postId) = some post) :
    (uid = post.author →
      (likeHandler s postId uid uname now false).store.notifs = s.notifs ∧
      (commentHandler s postId uid uname content now false).store.notifs = s.notifs) ∧
    (uid ∈ post.likes →
      (likeHandler s postId uid uname now false).store.notifs = s.notifs) ∧
    (uid ≠ post.author →
      (uid ∉ post.likes →
        ∃ n, (likeHandler s postId uid uname now false).store.notifs
              = s.notifs ++ [n] ∧
          n.recipient = post.author ∧ n.sender = some uid) ∧
      ∃ n, (commentHandler s postId uid uname content now false).store.notifs
            = s.notifs ++ [n] ∧
        n.recipient = post.author ∧ n.sender = some uid) := by
  unfold likeHandler commentHandler
  rw [hfind]
  refine ⟨?_, ?_, ?_⟩
  · intro hself
    constructor
    · by_cases hm : uid ∈ post.likes
      · simp [hm, savePost_notifs]
      · rw [hself] at hm
        simp [hm, hself, savePost_notifs]
    · simp [hself, savePost_notifs]
  · intro hm
    simp [hm, savePost_notifs]
  · intro hne
    have hne' : post.author ≠ uid := fun h => hne h.symm
    constructor
    · intro hm
      refine ⟨mkLikeNotif s post uid uname now, ?_, rfl, rfl⟩
      simp [hm, hne', savePost_notifs, createNotif]
    · refine ⟨mkCommentNotif (savePost s
        { post with comments := post.comments ++ [⟨uid, content, now⟩] })
          post uid uname now, ?_, rfl, rfl⟩
      simp [hne', savePost_notifs, createNotif]

theorem notify_iff_not_self_witness :
    (List.find? (fun p => p.id = "p1")
        [(⟨"p1", "owner", [], []⟩ : PostDoc)] = some ⟨"p1", "owner", [], []⟩) ∧
      ∃ n, (likeHandler ⟨[⟨"p1", "owner", [], []⟩], [], 0⟩ "p1" "alice" "Alice" 7
              false).store.notifs = [] ++ [n] ∧
        n.recipient = "owner" ∧ n.sender = some ("alice") := by
  refine ⟨by decide, ?_⟩
  have h := notify_iff_not_self ⟨[⟨"p1", "owner", [], []⟩], [], 0⟩ "p1" "alice"
    "Alice" "hi" 7 ⟨"p1", "owner", [], []⟩ (by decide)
  exact (h.2.2 (by decide)).1 (by decide)

/-- C5 counterexample: at a concrete store (post `p1` owned by `owner`,
actor `alice`), the like handler's commit order is notification first,
engagement save second; and with the notification store failing, both the
comment request and the like request answer `success = false` — the failure
is surfaced as a 400, not swallowed. -/
theorem notif_failure_not_swallowed_cex :
    (likeHandler ⟨[⟨"p1", "owner", [], []⟩], [], 0⟩ "p1" "alice" "Alice" 0
        false).trace = [StoreEvent.notifPersist, StoreEvent.engagementSave] ∧
    (commentHandler ⟨[⟨"p1", "owner", [], []⟩], [], 0⟩ "p1" "alice" "Alice" "hi" 0
        true).resp.success = false ∧
    (likeHandler ⟨[⟨"p1", "owner", [], []⟩], [], 0⟩ "p1" "alice" "Alice" 0
        true).resp.success = false :=
  ⟨rfl, rfl, rfl⟩

/-- C5 amended: the comment handler saves the comment to the engagement store
before persisting the notification, and a Notification Store failure there
leaves the saved comment in place (no rollback) with the notification list
unchanged — but the request fails with a 400 rather than completing
successfully; the like handler persists the notification *before* the
engagement save, and a Notification Store failure there aborts the request
before the like is committed, leaving the store untouched and failing the
request. -/
theorem engagement_vs_notification_commit (s : Store) (postId uid : Ident)
    (uname content : String) (now : Nat) (post : PostDoc)
    (hfind : s.posts.find? (fun p => p.id = postId) = some post)
    (hne : uid ≠ post.author) (hnl : uid ∉ post.likes) :
    (likeHandler s postId uid uname now false).trace
        = [StoreEvent.notifPersist, StoreEvent.engagementSave] ∧
    ((likeHandler s postId uid uname now true).store = s ∧
      (likeHandler s postId uid uname now true).resp.success = false) ∧
    (commentHandler s postId uid uname content now false).trace
        = [StoreEvent.engagementSave, StoreEvent.notifPersist] ∧
    ((commentHandler s postId uid uname content now true).store
        = savePost s { post with comments := post.comments ++ [⟨uid, content, now⟩] } ∧
      (commentHandler s postId uid uname content now true).store.notifs = s.notifs ∧
      (commentHandler s postId uid uname content now true).resp.success = false) := by
  have hne' : post.author ≠ uid := fun h => hne h.symm
  unfold likeHandler commentHandler
  rw [hfind]
  simp [hnl, hne', savePost_notifs]

theorem engagement_vs_notification_commit_witness :
    (List.find? (fun p => p.id = "p1")
        [(⟨"p1", "owner", [], []⟩ : PostDoc)] = some ⟨"p1", "owner", [], []⟩) ∧
      ("alice" : Ident) ≠ "owner" ∧ ("alice" : Ident) ∉ ([] : List Ident) ∧
      (commentHandler ⟨[⟨"p1", "owner", [], []⟩], [], 0⟩ "p1" "alice" "Alice" "hi" 3
          true).store
        = savePost ⟨[⟨"p1", "owner", [], []⟩], [], 0⟩
            ⟨"p1", "owner", [], [⟨"alice", "hi", 3⟩]⟩ := by
  refine ⟨by decide, by decide, by decide, ?_⟩
  exact (engagement_vs_notification_commit ⟨[⟨"p1", "owner", [], []⟩], [], 0⟩
    "p1" "alice" "Alice" "hi" 3 ⟨"p1", "owner", [], []⟩
    (by decide) (by decide) (by decide)).2.2.2.1

/-! ### Notification Store operations (`src/unnamed/part_000:197-281`)

The notification collection is a list of documents; `_id`s are assigned by
the store, so a well-formed collection has pairwise-distinct ids.
`findOneAndUpdate` / `findOneAndDelete` act on the first document matching
the filter `{_id: id, recipient: uid}` and leave everything else alone. -/

/-- The update applied by `router.put('/:id/read')`: `{isRead: true}`. -/
def setRead (n : Notification) : Notification :=
  { n with isRead := true }

/-- `Notification.findOneAndUpdate({_id: id, recipient: uid}, {isRead: true},
{new: true})`: returns the updated document (or `none` when no document
matches) together with the collection afterwards. -/
def findOneAndUpdateRead (store : List Notification) (id : Nat) (uid : Ident) :
    Option Notification × List Notification :=
  match store with
  | [] => (none, [])
  | n :: rest =>
    if n.id = id ∧ n.recipient = uid then (some (setRead n), setRead n :: rest)
    else
      let r := findOneAndUpdateRead rest id uid
      (r.1, n :: r.2)

/-- `Notification.findOneAndDelete({_id: id, recipient: uid})`: returns the
deleted document (or `none`) together with the collection afterwards. -/
def findOneAndDelete (store : List Notification) (id : Nat) (uid : Ident) :
    Option Notification × List Notification :=
  match store with
  | [] => (none, [])
  | n :: rest =>
    if n.id = id ∧ n.recipient = uid then (some n, rest)
    else
      let r := findOneAndDelete rest id uid
      (r.1, n :: r.2)

theorem findOneAndUpdateRead_of_no_match (store : List Notification)
    (id : Nat) (uid : Ident)
    (h : ∀ n ∈ store, ¬(n.id = id ∧ n.recipient = uid)) :
    findOneAndUpdateRead store id uid = (none, store) := by
  induction store with
  | nil => rfl
  | cons n rest ih =>
      unfold findOneAndUpdateRead
      rw [if_neg (h n (List.mem_cons_self n rest))]
      rw [ih (fun m hm => h m (List.mem_cons_of_mem n hm))]

theorem findOneAndDelete_of_no_match (store : List Notification)
    (id : Nat) (uid : Ident)
    (h : ∀ n ∈ store, ¬(n.id = id ∧ n.recipient = uid)) :
    findOneAndDelete store id uid = (none, store) := by
  induction store with
  | nil => rfl
  | cons n rest ih =>
      unfold findOneAndDelete
      rw [if_neg (h n (List.mem_cons_self n rest))]
      rw [ih (fun m hm => h m (List.mem_cons_of_mem n hm))]

theorem findOneAndUpdateRead_of_match (pre post : List Notification)
    (n : Notification) (id : Nat) (uid : Ident)
    (hn : n.id = id ∧ n.recipient = uid)
    (hpre : ∀ m ∈ pre, ¬(m.id = id ∧ m.recipient = uid)) :
    findOneAndUpdateRead (pre ++ n :: post) id uid
      = (some (setRead n), pre ++ setRead n :: post) := by
  induction pre with
  | nil =>
      rw [List.nil_append, List.nil_append]
      unfold findOneAndUpdateRead
      rw [if_pos hn]
  | cons m pre ih =>
      rw [List.cons_append, List.cons_append]
      unfold findOneAndUpdateRead
      rw [if_neg (hpre m (List.mem_cons_self m pre))]
      rw [ih (fun k hk => hpre k (List.mem_cons_of_mem m hk))]

theorem findOneAndDelete_of_match (pre post : List Notification)
    (n : Notification) (id : Nat) (uid : Ident)
    (hn : n.id = id ∧ n.recipient = uid)
    (hpre : ∀ m ∈ pre, ¬(m.id = id ∧ m.recipient = uid)) :
    findOneAndDelete (pre ++ n :: post) id uid = (some n, pre ++ post) := by
  induction pre with
  | nil =>
      rw [List.nil_append, List.nil_append]
      unfold findOneAndDelete
      rw [if_pos hn]
  | cons m pre ih =>
      rw [List.cons_append, List.cons_append]
      unfold findOneAndDelete
      rw [if_neg (hpre m (List.mem_cons_self m pre))]
      rw [ih (fun k hk => hpre k (List.mem_cons_of_mem m hk))]

/-- C6: `MarkRead(id, uid)` and `Delete(id, uid)` answer `NotFound` (the
handler's 404 on a `none` result) and leave the collection untouched when no
notification has that id for that recipient — in particular when the id
exists but belongs to a different recipient; when the collection splits as
`pre ++ n :: post` with `n` the first document matching `{_id: id,
recipient: uid}`, MarkRead returns `n` with `isRead := true` and rewrites
exactly `n`, and Delete returns `n` and removes exactly `n`. -/
theorem markRead_delete_recipient_scoped (store : List Notification)
    (id : Nat) (uid : Ident) :
    ((∀ n ∈ store, ¬(n.id = id ∧ n.recipient = uid)) →
      findOneAndUpdateRead store id uid = (none, store) ∧
      findOneAndDelete store id uid = (none, store)) ∧
    ∀ pre n post, store = pre ++ n :: post →
      n.id = id → n.recipient = uid →
      (∀ m ∈ pre, ¬(m.id = id ∧ m.recipient = uid)) →
      findOneAndUpdateRead store id uid
          = (some (setRead n), pre ++ setRead n :: post) ∧
        (setRead n).isRead = true ∧
      findOneAndDelete store id uid = (some n, pre ++ post) := by
  constructor
  · intro h
    exact ⟨findOneAndUpdateRead_of_no_match store id uid h,
      findOneAndDelete_of_no_match store id uid h⟩
  · intro pre n post hsplit hid hrec hpre
    subst hsplit
    exact ⟨findOneAndUpdateRead_of_match pre post n id uid ⟨hid, hrec⟩ hpre,
      rfl, findOneAndDelete_of_match pre post n id uid ⟨hid, hrec⟩ hpre⟩

theorem markRead_delete_recipient_scoped_witness :
    (findOneAndUpdateRead
        [⟨1, "bob", none, "like", "t", "m", none, false, 0⟩] 1 "alice"
      = (none, [⟨1, "bob", none, "like", "t", "m", none, false, 0⟩]) ∧
     findOneAndDelete
        [⟨1, "bob", none, "like", "t", "m", none, false, 0⟩] 1 "alice"
      = (none, [⟨1, "bob", none, "like", "t", "m", none, false, 0⟩])) ∧
    (findOneAndUpdateRead
        [⟨1, "bob", none, "like", "t", "m", none, false, 0⟩,
         ⟨2, "alice", none, "like", "t", "m", none, false, 0⟩] 2 "alice"
      = (some ⟨2, "alice", none, "like", "t", "m", none, true, 0⟩,
         [⟨1, "bob", none, "like", "t", "m", none, false, 0⟩,
          ⟨2, "alice", none, "like", "t", "m", none, true, 0⟩]) ∧
     findOneAndDelete
        [⟨1, "bob", none, "like", "t", "m", none, false, 0⟩,
         ⟨2, "alice", none, "like", "t", "m", none, false, 0⟩] 2 "alice"
      = (some ⟨2, "alice", none, "like", "t", "m", none, false, 0⟩,
         [⟨1, "bob", none, "like", "t", "m", none, false, 0⟩])) := by
  constructor
  · exact (markRead_delete_recipient_scoped
      [⟨1, "bob", none, "like", "t", "m", none, false, 0⟩] 1 "alice").1
      (by decide)
  · have h := (markRead_delete_recipient_scoped
      [⟨1, "bob", none, "like", "t", "m", none, false, 0⟩,
       ⟨2, "alice", none, "like", "t", "m", none, false, 0⟩] 2 "alice").2
      [⟨1, "bob", none, "like", "t", "m", none, false, 0⟩]
      ⟨2, "alice", none, "like", "t", "m", none, false, 0⟩ [] rfl rfl rfl
      (by decide)
    exact ⟨h.1, h.2.2⟩

/-! ### The inbox query `router.get('/')` (`src/unnamed/part_000:197-224`) -/

/-- The sort order of `sort({createdAt: -1})`: newest first. -/
def createdAtGE (a b : Notification) : Prop :=
  b.createdAt ≤ a.createdAt

instance : DecidableRel createdAtGE :=
  fun a b => Nat.decLe b.createdAt a.createdAt

instance : IsTotal Notification createdAtGE :=
  ⟨fun a b => le_total b.createdAt a.createdAt⟩

instance : IsTrans Notification createdAtGE :=
  ⟨fun _ _ _ hab hbc => le_trans hbc hab⟩

/-- The JSON page answered by the inbox query. -/
structure InboxPage where
  count : Nat
  total : Nat
  unreadCount : Nat
  pages : Nat
  items : List Notification
deriving DecidableEq, Repr

/-- The inbox query: `find({recipient: uid}).sort({createdAt: -1})
.limit(limit).skip((page - 1) * limit)`, `total = countDocuments({recipient:
uid})`, `unreadCount = countDocuments({recipient: uid, isRead: false})`,
`pages = Math.ceil(total / limit)` (written `(total + limit - 1) / limit`
over naturals). -/
def listByRecipient (store : List Notification) (uid : Ident)
    (page limit : Nat) : InboxPage :=
  let mine := store.filter (fun n => n.recipient = uid)
  let sorted := List.insertionSort createdAtGE mine
  let items := (sorted.drop ((page - 1) * limit)).take limit
  { count := items.length
    total := mine.length
    unreadCount := (store.filter (fun n => n.recipient = uid ∧ n.isRead = false)).length
    pages := (mine.length + limit - 1) / limit
    items := items }

theorem ceil_div_spec (t l : Nat) (hl : 0 < l) :
    t ≤ ((t + l - 1) / l) * l ∧ ∀ k, t ≤ k * l → (t + l - 1) / l ≤ k := by
  rcases Nat.eq_zero_or_pos t with rfl | ht
  · constructor
    · simp
    · intro k _
      have h0 : l - 1 < l := by omega
      have h1 : (0 + l - 1) / l = 0 := by
        rw [Nat.zero_add]
        exact Nat.div_eq_of_lt h0
      rw [h1]
      exact Nat.zero_le k
  · have hq : (t + l - 1) / l = (t - 1) / l + 1 := by
      have h : t + l - 1 = (t - 1) + l := by omega
      rw [h, Nat.add_div_right _ hl]
    constructor
    · rw [hq]
      have h2 : t - 1 < ((t - 1) / l + 1) * l :=
        (Nat.div_lt_iff_lt_mul hl).mp (Nat.lt_succ_self _)
      omega
    · intro k hk
      rw [hq]
      have h3 : t - 1 < k * l := by omega
      have h4 : (t - 1) / l < k := (Nat.div_lt_iff_lt_mul hl).mpr h3
      omega

/-- C7: the inbox page contains only the caller's notifications, ordered by
`createdAt` descending; `count` is the number of items actually returned,
which equals `min(pageSize, total - page_offset)`; and `pages` is
`ceil(total / pageSize)`, characterised as the least `k` with
`total ≤ k * pageSize`. -/
theorem listByRecipient_contract (store : List Notification) (uid : Ident)
    (page limit : Nat) (hl : 0 < limit) :
    (∀ n ∈ (listByRecipient store uid page limit).items, n.recipient = uid) ∧
    (listByRecipient store uid page limit).items.Pairwise createdAtGE ∧
    (listByRecipient store uid page limit).count
        = (listByRecipient store uid page limit).items.length ∧
    (listByRecipient store uid page limit).count
        = min limit
            ((listByRecipient store uid page limit).total - (page - 1) * limit) ∧
    ((listByRecipient store uid page limit).total
        ≤ (listByRecipient store uid page limit).pages * limit ∧
      ∀ k, (listByRecipient store uid page limit).total ≤ k * limit →
        (listByRecipient store uid page limit).pages ≤ k) := by
  refine ⟨?_, ?_, rfl, ?_, ?_⟩
  · intro n hn
    have h0 : n ∈ (List.insertionSort createdAtGE
        (store.filter (fun n => n.recipient = uid))).drop ((page - 1) * limit) :=
      List.take_subset _ _ hn
    have h1 : n ∈ List.insertionSort createdAtGE
        (store.filter (fun n => n.recipient = uid)) :=
      List.drop_subset _ _ h0
    have h2 : n ∈ store.filter (fun n => n.recipient = uid) :=
      (List.perm_insertionSort createdAtGE _).mem_iff.mp h1
    have h3 := (List.mem_filter.mp h2).2
    exact of_decide_eq_true h3
  · have hsorted : List.Pairwise createdAtGE
        (List.insertionSort createdAtGE
          (store.filter (fun n => n.recipient = uid))) :=
      List.sorted_insertionSort createdAtGE _
    have hsub : List.Sublist (listByRecipient store uid page limit).items
        (List.insertionSort createdAtGE
          (store.filter (fun n => n.recipient = uid))) :=
      List.Sublist.trans (List.take_sublist _ _) (List.drop_sublist _ _)
    exact hsorted.sublist hsub
  · show (((List.insertionSort createdAtGE
        (store.filter (fun n => n.recipient = uid))).drop
          ((page - 1) * limit)).take limit).length = _
    rw [List.length_take, List.length_drop, List.length_insertionSort]
    rfl
  · exact ceil_div_spec (store.filter (fun n => n.recipient = uid)).length
      limit hl

theorem listByRecipient_contract_witness :
    (0 : Nat) < 2 ∧
      (∀ n ∈ (listByRecipient
          [⟨1, "a", none, "like", "t", "m", none, false, 5⟩,
           ⟨2, "b", none, "like", "t", "m", none, false, 9⟩,
           ⟨3, "a", none, "like", "t", "m", none, false, 8⟩,
           ⟨4, "a", none, "like", "t", "m", none, true, 2⟩] "a" 1 2).items,
        n.recipient = "a") ∧
      (listByRecipient
          [⟨1, "a", none, "like", "t", "m", none, false, 5⟩,
           ⟨2, "b", none, "like", "t", "m", none, false, 9⟩,
           ⟨3, "a", none, "like", "t", "m", none, false, 8⟩,
           ⟨4, "a", none, "like", "t", "m", none, true, 2⟩] "a" 1 2).count
        = min 2 (3 - 0 * 2) := by
  have h := listByRecipient_contract
    [⟨1, "a", none, "like", "t", "m", none, false, 5⟩,
     ⟨2, "b", none, "like", "t", "m", none, false, 9⟩,
     ⟨3, "a", none, "like", "t", "m", none, false, 8⟩,
     ⟨4, "a", none, "like", "t", "m", none, true, 2⟩] "a" 1 2 (by decide)
  exact ⟨by decide, h.1, h.2.2.2.1⟩

/-! ### C8: the notification record is immutable apart from `isRead` -/

/-- `router.put('/read-all')` (`src/unnamed/part_000:250-261`):
`updateMany({recipient: uid, isRead: false}, {isRead: true})`. -/
def updateManyRead (store : List Notification) (uid : Ident) :
    List Notification :=
  store.map (fun n => if n.recipient = uid ∧ n.isRead = false then setRead n else n)

/-- The operations of the notification core that touch the collection:
creation by the fan-out handlers, mark-read, mark-all-read, delete. -/
inductive NotifOp where
  | create (n : Notification)
  | markRead (id : Nat) (uid : Ident)
  | markAllRead (uid : Ident)
  | delete (id : Nat) (uid : Ident)
deriving DecidableEq, Repr

def applyNotifOp (store : List Notification) : NotifOp → List Notification
  | .create n => store ++ [n]
  | .markRead id uid => (findOneAndUpdateRead store id uid).2
  | .markAllRead uid => updateManyRead store uid
  | .delete id uid => (findOneAndDelete store id uid).2

theorem mem_findOneAndUpdateRead_snd (store : List Notification) (id : Nat)
    (uid : Ident) (x : Notification)
    (h : x ∈ (findOneAndUpdateRead store id uid).2) :
    ∃ n ∈ store, x = n ∨ x = setRead n := by
  induction store with
  | nil => exact absurd h (List.not_mem_nil x)
  | cons n rest ih =>
      unfold findOneAndUpdateRead at h
      by_cases hc : n.id = id ∧ n.recipient = uid
      · rw [if_pos hc] at h
        rcases List.mem_cons.mp h with h1 | h1
        · exact ⟨n, List.mem_cons_self n rest, Or.inr h1⟩
        · exact ⟨x, List.mem_cons_of_mem n h1, Or.inl rfl⟩
      · rw [if_neg hc] at h
        rcases List.mem_cons.mp h with h1 | h1
        · exact ⟨n, List.mem_cons_self n rest, Or.inl h1⟩
        · rcases ih h1 with ⟨m, hm, hx⟩
          exact ⟨m, List.mem_cons_of_mem n hm, hx⟩

theorem mem_findOneAndDelete_snd (store : List Notification) (id : Nat)
    (uid : Ident) (x : Notification)
    (h : x ∈ (findOneAndDelete store id uid).2) : x ∈ store := by
  induction store with
  | nil => exact absurd h (List.not_mem_nil x)
  | cons n rest ih =>
      unfold findOneAndDelete at h
      by_cases hc : n.id = id ∧ n.recipient = uid
      · rw [if_pos hc] at h
        exact List.mem_cons_of_mem n h
      · rw [if_neg hc] at h
        rcases List.mem_cons.mp h with h1 | h1
        · exact h1 ▸ List.mem_cons_self n rest
        · exact List.mem_cons_of_mem n (ih h1)

/-- C8: `recipient` is a total (schema-`required`) field of every record, and
after any core operation every record in the collection is either a record
the operation created, or an untouched prior record, or a prior record
changed exactly by `isRead := true` — `isRead` moves only towards `true`
and no other field of an existing record is ever altered. -/
theorem notification_immutable_apart_from_isRead (store : List Notification)
    (op : NotifOp) (x : Notification) (h : x ∈ applyNotifOp store op) :
    (∃ m, op = .create m ∧ x = m) ∨
      ∃ n ∈ store, x = n ∨ x = setRead n := by
  cases op with
  | create m =>
      rcases List.mem_append.mp h with h1 | h1
      · exact Or.inr ⟨x, h1, Or.inl rfl⟩
      · exact Or.inl ⟨m, rfl, List.mem_singleton.mp h1⟩
  | markRead id uid =>
      exact Or.inr (mem_findOneAndUpdateRead_snd store id uid x h)
  | markAllRead uid =>
      rcases List.mem_map.mp h with ⟨n, hn, hx⟩
      by_cases hc : n.recipient = uid ∧ n.isRead = false
      · rw [if_pos hc] at hx
        exact Or.inr ⟨n, hn, Or.inr hx.symm⟩
      · rw [if_neg hc] at hx
        exact Or.inr ⟨n, hn, Or.inl hx.symm⟩
  | delete id uid =>
      exact Or.inr ⟨x, mem_findOneAndDelete_snd store id uid x h, Or.inl rfl⟩

theorem notification_immutable_apart_from_isRead_witness :
    (∃ m, NotifOp.markAllRead ("a") = NotifOp.create m ∧
        (⟨1, "a", none, "like", "t", "m", none, true, 0⟩ : Notification) = m) ∨
      ∃ n ∈ [(⟨1, "a", none, "like", "t", "m", none, false, 0⟩ : Notification)],
        (⟨1, "a", none, "like", "t", "m", none, true, 0⟩ : Notification) = n ∨
          (⟨1, "a", none, "like", "t", "m", none, true, 0⟩ : Notification)
            = setRead n :=
  notification_immutable_apart_from_isRead
    [⟨1, "a", none, "like", "t", "m", none, false, 0⟩]
    (NotifOp.markAllRead ("a"))
    ⟨1, "a", none, "like", "t", "m", none, true, 0⟩ (by decide)

/-! ### C9: concurrency of the like toggle

The like handler is a document-level read-then-write-back:
`Post.findById` reads the whole document, the array is mutated in memory,
and `post.save()` writes the whole document back
(`src/unnamed/part_000:67-102`) — there is no field-scoped conditional
update at the store boundary.  We model each in-flight request by the
snapshot its `findById` returned, and a schedule interleaves the read and
write steps of the requests against the shared `likes` field. -/

/-- One in-flight like-toggle request: its actor and, once `findById` has
run, the document state it read. -/
structure LikeReq where
  actor : Ident
  snapshot : Option (List Ident)
deriving DecidableEq, Repr

/-- The shared post (its `likes` field) plus the in-flight requests. -/
structure LikeSys where
  store : List Ident
  reqs : List LikeReq
deriving DecidableEq, Repr

/-- A scheduler step: request `i` performs its `findById` read, or its
`post.save()` write-back of the toggle computed from its own snapshot. -/
inductive LikeEv where
  | read (i : Nat)
  | write (i : Nat)
deriving DecidableEq, Repr

def likeStep (s : LikeSys) (e : LikeEv) : LikeSys :=
  match e with
  | .read i =>
    match s.reqs.get? i with
    | none => s
    | some r => { s with reqs := s.reqs.set i { r with snapshot := some s.store } }
  | .write i =>
    match s.reqs.get? i with
    | none => s
    | some r =>
      match r.snapshot with
      | none => s
      | some snap => { s with store := toggleLike snap r.actor }

def likeRun (init : LikeSys) (sched : List LikeEv) : LikeSys :=
  sched.foldl likeStep init

def initLikeSys (likes : List Ident) (actors : List Ident) : LikeSys :=
  { store := likes, reqs := actors.map (fun a => ⟨a, none⟩) }

/-- C9 counterexample: two concurrent toggles by the distinct actors `a` and
`b` on a post with an empty like set, interleaved so that both `findById`
reads happen before either `post.save()`: the final like set is `["b"]` —
actor `a`'s membership change is lost.  The document-level
read-then-write-back is not the atomic field-scoped update the claim
asserts. -/
theorem toggle_lost_update_cex :
    (likeRun (initLikeSys [] ["a", "b"])
        [LikeEv.read 0, LikeEv.read 1, LikeEv.write 0, LikeEv.write 1]).store
      = ["b"] ∧
    ¬ ("a" ∈ (likeRun (initLikeSys [] ["a", "b"])
        [LikeEv.read 0, LikeEv.read 1, LikeEv.write 0, LikeEv.write 1]).store) := by
  exact ⟨rfl, by decide⟩

/-- C9 amended: `ToggleLike` is implemented as a document-level
read-then-write-back (`findById` … `save`), not an atomic field-scoped
conditional update, so there is an interleaving of two distinct actors'
toggle calls under which one actor's membership change is lost (see the
counterexample); when the two calls run serially — each request's read
observing the other's committed write — both actors' membership changes are
reflected in the final set. -/
theorem toggle_serial_no_lost_update (likes : List Ident) (a b : Ident)
    (hab : a ≠ b) (ha : a ∉ likes) (hb : b ∉ likes) :
    a ∈ (likeRun (initLikeSys likes [a, b])
        [LikeEv.read 0, LikeEv.write 0, LikeEv.read 1, LikeEv.write 1]).store ∧
    b ∈ (likeRun (initLikeSys likes [a, b])
        [LikeEv.read 0, LikeEv.write 0, LikeEv.read 1, LikeEv.write 1]).store := by
  have hrun : (likeRun (initLikeSys likes [a, b])
      [LikeEv.read 0, LikeEv.write 0, LikeEv.read 1, LikeEv.write 1]).store
      = toggleLike (toggleLike likes a) b := by
    rfl
  rw [hrun]
  have h1 : toggleLike likes a = likes ++ [a] := if_neg ha
  have hb1 : b ∉ likes ++ [a] := by
    intro hmem
    rcases List.mem_append.mp hmem with h | h
    · exact hb h
    · exact hab (List.mem_singleton.mp h).symm
  have h2 : toggleLike (toggleLike likes a) b = (likes ++ [a]) ++ [b] := by
    rw [h1]
    exact if_neg hb1
  rw [h2]
  constructor
  · exact List.mem_append.mpr (Or.inl (List.mem_append.mpr (Or.inr (List.mem_singleton.mpr rfl))))
  · exact List.mem_append.mpr (Or.inr (List.mem_singleton.mpr rfl))

theorem toggle_serial_no_lost_update_witness :
    ("a" : Ident) ≠ "b" ∧ ("a" : Ident) ∉ (["c"] : List Ident) ∧
      ("b" : Ident) ∉ (["c"] : List Ident) ∧
      ("a" ∈ (likeRun (initLikeSys ["c"] ["a", "b"])
          [LikeEv.read 0, LikeEv.write 0, LikeEv.read 1, LikeEv.write 1]).store ∧
       "b" ∈ (likeRun (initLikeSys ["c"] ["a", "b"])
          [LikeEv.read 0, LikeEv.write 0, LikeEv.read 1, LikeEv.write 1]).store) := by
  refine ⟨by decide, by decide, by decide, ?_⟩
  exact toggle_serial_no_lost_update ["c"] "a" "b" (by decide) (by decide) (by decide)

/-! ### C10: bookmark uniqueness (`src/models/Post.js:71-100`) -/

/-- A bookmark document of `bookmarkSchema`: `user` is required; exactly one
of `post` / `event` / `userBookmarked` carries the target, selected by
`type ∈ {post, event, user}`. -/
structure Bookmark where
  user : Ident
  post : Option Ident := none
  event : Option Ident := none
  userBookmarked : Option Ident := none
  type : String
deriving DecidableEq, Repr

/-- The key of the unique index
`bookmarkSchema.index({user: 1, post: 1, event: 1, userBookmarked: 1},
{unique: true})` (`src/models/Post.js:98`). -/
def bookmarkKey (b : Bookmark) : Ident × Option Ident × Option Ident × Option Ident :=
  (b.user, b.post, b.event, b.userBookmarked)

/-- The bookmark document for a `(targetType, targetId)` attempt: the target
id is stored in the field named by `targetType`, the other target fields
stay unset. -/
def mkBookmark (uid : Ident) (targetType : String) (targetId : Ident) : Bookmark :=
  if targetType = "post" then
    { user := uid, post := some targetId, type := targetType }
  else if targetType = "event" then
    { user := uid, event := some targetId, type := targetType }
  else
    { user := uid, userBookmarked := some targetId, type := targetType }

/-- Modelled from the spec: the repository declares the unique index on
`(user, post, event, userBookmarked)` in `src/models/Post.js:98` but the
bookmark route itself is not among the sources, so the store-boundary insert
is modelled from the spec's rule that a write violating the uniqueness
invariant fails with a `Conflict` (duplicate-key error) instead of
inserting a second row. -/
def bookmarkCreate (store : List Bookmark) (b : Bookmark) :
    Except Unit (List Bookmark) :=
  if store.any (fun x => bookmarkKey x = bookmarkKey b) then .error ()
  else .ok (store ++ [b])

/-- C10: a repeated bookmark attempt by the same user for the same
`(targetType, targetId)` fails with `Conflict` once a row with that key
exists — in particular immediately after a successful first attempt, whose
success leaves exactly one row with that key; and whatever a `bookmarkCreate`
returns, a collection whose keys were pairwise distinct never ends up with
two rows of the same key. -/
theorem bookmark_no_duplicate (store : List Bookmark) (uid : Ident)
    (targetType targetId : Ident) (store' : List Bookmark)
    (hok : bookmarkCreate store (mkBookmark uid targetType targetId)
      = .ok store') :
    bookmarkCreate store' (mkBookmark uid targetType targetId) = .error () ∧
    (store'.filter
        (fun x => bookmarkKey x = bookmarkKey (mkBookmark uid targetType targetId))).length
      = 1 ∧
    ((store.map bookmarkKey).Nodup → (store'.map bookmarkKey).Nodup) := by
  unfold bookmarkCreate at hok
  by_cases hc : store.any (fun x => bookmarkKey x = bookmarkKey (mkBookmark uid targetType targetId))
  · rw [if_pos hc] at hok
    exact absurd hok (by simp)
  · rw [if_neg hc] at hok
    have hstore' : store' = store ++ [mkBookmark uid targetType targetId] :=
      (Except.ok.injEq _ _ ▸ hok.symm : _)
    have hnone : ∀ x ∈ store, ¬ bookmarkKey x = bookmarkKey (mkBookmark uid targetType targetId) := by
      intro x hx
      intro hk
      exact hc (List.any_eq_true.mpr ⟨x, hx, decide_eq_true hk⟩)
    subst hstore'
    refine ⟨?_, ?_, ?_⟩
    · unfold bookmarkCreate
      rw [if_pos]
      exact List.any_eq_true.mpr
        ⟨mkBookmark uid targetType targetId,
         List.mem_append.mpr (Or.inr (List.mem_singleton.mpr rfl)),
         decide_eq_true rfl⟩
    · rw [List.filter_append]
      have h1 : store.filter
          (fun x => bookmarkKey x = bookmarkKey (mkBookmark uid targetType targetId)) = [] :=
        List.filter_eq_nil_iff.mpr (fun x hx => by
          simp only [decide_eq_true_eq]
          exact hnone x hx)
      have h2 : ([mkBookmark uid targetType targetId]).filter
          (fun x => bookmarkKey x = bookmarkKey (mkBookmark uid targetType targetId))
          = [mkBookmark uid targetType targetId] := by
        simp
      rw [h1, h2]
      rfl
    · intro hnodup
      rw [List.map_append]
      rw [List.nodup_append]
      refine ⟨hnodup, List.nodup_singleton _, ?_⟩
      intro k hk hk2
      rcases List.mem_map.mp hk with ⟨x, hx, hkey⟩
      have hk1 : k = bookmarkKey (mkBookmark uid targetType targetId) := by
        simpa using hk2
      exact hnone x hx (hkey.symm ▸ hk1 ▸ rfl)

theorem bookmark_no_duplicate_witness :
    bookmarkCreate [] (mkBookmark ("u") ("post") ("p1")) = .ok [mkBookmark ("u") ("post") ("p1")] ∧
      (bookmarkCreate [mkBookmark ("u") ("post") ("p1")] (mkBookmark ("u") ("post") ("p1"))
          = .error () ∧
        (([mkBookmark ("u") ("post") ("p1")]).filter
            (fun x => bookmarkKey x = bookmarkKey (mkBookmark ("u") ("post") ("p1")))).length = 1 ∧
        ((([] : List Bookmark).map bookmarkKey).Nodup →
          (([mkBookmark ("u") ("post") ("p1")]).map bookmarkKey).Nodup)) := by
  refine ⟨rfl, ?_⟩
  exact bookmark_no_duplicate [] ("u") ("post") ("p1") [mkBookmark ("u") ("post") ("p1")] rfl

end Unipulse
